import Mathlib

/-!
Verification of the scene & interaction core of the blueprint editor
(`CanvasDrawing.js`, `Grid.js`, `LayerManager.js`, `Shapes.js`).

The JavaScript is embedded shallowly:

* JS numbers are modelled as `ℚ` (all arithmetic the verified claims touch is
  exact decimal/rational arithmetic; `Math.sqrt(v) > 5` is expressed as
  `v > 25`, which is equivalent for the nonnegative radicand produced by the
  source).
* `Math.round` is `jsRound` (floor of `x + 1/2`, which is JS round-half-up).
* Mutable objects become explicit state records; each JS method becomes a
  function from the state to the updated state (plus its return value).
* `JSON.parse(JSON.stringify(x))` on the plain-data drawing records is a deep
  copy; on immutable Lean values a deep copy is the value itself.
-/

namespace Blueprint

/-- JS `Math.round`: rounds half-up (`Math.round (-0.5) = 0`). -/
def jsRound (q : ℚ) : ℤ := ⌊q + 1/2⌋

/-- JS `list.slice(0, e)` for a possibly negative/oversized end index `e`. -/
def jsTake (l : List α) (e : ℤ) : List α :=
  if e < 0 then l.take ((l.length : ℤ) + e).toNat else l.take e.toNat

/-- The `properties` object attached to a drawing by
`getCurrentToolProperties` (text tool: `text`/`fontSize`/`fontFamily`;
rectangle and circle: `filled`; other tools: empty object). -/
structure ToolProps where
  text : Option String := none
  fontSize : Option ℚ := none
  fontFamily : Option String := none
  filled : Option Bool := none
deriving DecidableEq, Repr

/-- A committed or provisional drawing record, as built in `handleMouseDown`
(`{ tool, startX, startY, endX, endY, color, width, fill, properties }`).
The `tool` is kept as a string because `isValidDrawing` and `drawShape`
dispatch on the string and have a default case for unknown tools. -/
structure Drawing where
  tool : String
  startX : ℚ
  startY : ℚ
  endX : ℚ
  endY : ℚ
  color : String
  width : ℚ
  fill : String
  properties : ToolProps
deriving DecidableEq, Repr

/-- The mutable state of `CanvasDrawing` together with the pieces of the
global `AppState` it manipulates (`AppState.drawings`, `AppState.zoom`).
DOM/canvas handles and display-only fields are not part of the model. -/
structure Editor where
  drawings : List Drawing
  history : List (List Drawing)
  historyIndex : ℤ
  isDrawing : Bool
  currentPreview : Option Drawing
  startX : ℚ
  startY : ℚ
  zoom : ℚ
  gridSize : ℚ
  snapToGrid : Bool
deriving DecidableEq, Repr

/-- `CanvasDrawing` constructor state plus the initial `AppState`
(`drawings: []`, `zoom: 1`): `history = []`, `historyIndex = -1`,
`gridSize = 20`, `snapToGrid = true`. -/
def initEditor : Editor :=
  { drawings := [], history := [], historyIndex := -1, isDrawing := false,
    currentPreview := none, startX := 0, startY := 0, zoom := 1,
    gridSize := 20, snapToGrid := true }

/-- `this.maxHistorySize = 50`. -/
def maxHistorySize : ℕ := 50

/-- `snapToGridCoord(coord)`:
`Math.round(coord / this.gridSize) * this.gridSize`. -/
def snapToGridCoord (e : Editor) (coord : ℚ) : ℚ :=
  (jsRound (coord / e.gridSize) : ℚ) * e.gridSize

/-- `isValidDrawing(drawing)`.  The circle/line cases compare
`Math.sqrt(dx*dx + dy*dy) > 5`; over nonnegative radicands this is exactly
`dx*dx + dy*dy > 25`, which is the executable form used here. -/
def isValidDrawing (d : Drawing) : Bool :=
  if d.tool = "rectangle" then
    decide (5 < |d.endX - d.startX| ∧ 5 < |d.endY - d.startY|)
  else if d.tool = "circle" then
    decide (25 < (d.endX - d.startX) ^ 2 + (d.endY - d.startY) ^ 2)
  else if d.tool = "line" then
    decide (25 < (d.endX - d.startX) ^ 2 + (d.endY - d.startY) ^ 2)
  else if d.tool = "text" then
    true
  else
    false

/-- The first step of `saveState()`: drop the redo branch
(`this.history = this.history.slice(0, this.historyIndex + 1)` when the
cursor is not at the end). -/
def truncatedHistory (e : Editor) : List (List Drawing) :=
  if e.historyIndex < (e.history.length : ℤ) - 1 then
    jsTake e.history (e.historyIndex + 1)
  else e.history

/-- `saveState()`: truncate any redo branch, push a deep copy of
`AppState.drawings`, advance the cursor (`historyIndex++`), and evict the
oldest snapshot (`history.shift()`, `historyIndex--`) when the capacity is
exceeded — the net cursor movement in the eviction case is zero. -/
def saveState (e : Editor) : Editor :=
  let hist := truncatedHistory e ++ [e.drawings]
  if maxHistorySize < hist.length then
    { e with history := hist.tail, historyIndex := e.historyIndex }
  else
    { e with history := hist, historyIndex := e.historyIndex + 1 }

/-- The same push without the `maxHistorySize` eviction block; used only to
compare undo/redo availability with and without the eviction. -/
def saveStateNoEvict (e : Editor) : Editor :=
  { e with history := truncatedHistory e ++ [e.drawings],
           historyIndex := e.historyIndex + 1 }

/-- `canUndo()`: `this.historyIndex > 0`. -/
def canUndo (e : Editor) : Bool := decide (0 < e.historyIndex)

/-- `canRedo()`: `this.historyIndex < this.history.length - 1`. -/
def canRedo (e : Editor) : Bool :=
  decide (e.historyIndex < (e.history.length : ℤ) - 1)

/-- `undo()`: guarded by `canUndo`, decrements the cursor and replaces
`AppState.drawings` with a deep copy of `history[historyIndex]`. -/
def undo (e : Editor) : Editor :=
  if canUndo e then
    let idx := e.historyIndex - 1
    { e with historyIndex := idx,
             drawings := (e.history.get? idx.toNat).getD [] }
  else e

/-- `redo()`: guarded by `canRedo`, advances the cursor and replaces
`AppState.drawings` with a deep copy of `history[historyIndex]`. -/
def redo (e : Editor) : Editor :=
  if canRedo e then
    let idx := e.historyIndex + 1
    { e with historyIndex := idx,
             drawings := (e.history.get? idx.toNat).getD [] }
  else e

/-- `handleMouseDown(event)`.  `x` and `y` are the pointer coordinates after
the handler's `(clientX - rect.left) / AppState.zoom` conversion; `tool` is
`AppState.currentTool`; `color`, `w`, `fill`, `props` are the values of
`getStrokeColor()`, `getStrokeWidth()`, `getFillColor()`,
`getCurrentToolProperties()`. -/
def handleMouseDown (e : Editor) (tool : String) (x y : ℚ)
    (color : String) (w : ℚ) (fill : String) (props : ToolProps) : Editor :=
  let sx := if e.snapToGrid then snapToGridCoord e x else x
  let sy := if e.snapToGrid then snapToGridCoord e y else y
  let e1 := { e with startX := sx, startY := sy }
  if tool = "select" then e1
  else
    let e2 := saveState { e1 with isDrawing := true }
    { e2 with currentPreview := some (
        { tool := tool, startX := sx, startY := sy, endX := sx, endY := sy,
          color := color, width := w, fill := fill, properties := props }) }

/-- `handleMouseMove(event)` (model of the drawing-state part; the
mouse-position display and preview rendering have no model state). -/
def handleMouseMove (e : Editor) (x y : ℚ) : Editor :=
  if e.isDrawing then
    match e.currentPreview with
    | some p =>
        { e with currentPreview := some (
            { p with endX := if e.snapToGrid then snapToGridCoord e x else x,
                     endY := if e.snapToGrid then snapToGridCoord e y else y }) }
    | none => e
  else e

/-- `handleMouseUp(event)`: commits the provisional drawing to
`AppState.drawings` exactly when `isValidDrawing` accepts it, then clears the
provisional state. -/
def handleMouseUp (e : Editor) : Editor :=
  if e.isDrawing then
    match e.currentPreview with
    | some p =>
        let e1 := if isValidDrawing p then
                    { e with drawings := e.drawings ++ [p] }
                  else e
        { e1 with currentPreview := none, isDrawing := false }
    | none => { e with isDrawing := false }
  else { e with isDrawing := false }

/-- One full stroke: pointer-down at `(x0, y0)`, one pointer-move to
`(x1, y1)`, pointer-up. -/
def stroke (e : Editor) (tool : String) (x0 y0 x1 y1 : ℚ)
    (color : String) (w : ℚ) (fill : String) (props : ToolProps) : Editor :=
  handleMouseUp (handleMouseMove (handleMouseDown e tool x0 y0 color w fill props) x1 y1)

/-- `handleWheel(event)`: `delta` is `0.9` or `1.1` from the wheel direction,
and the new zoom is clamped into `[0.1, 5]`. -/
def handleWheel (e : Editor) (deltaY : ℚ) : Editor :=
  let delta : ℚ := if 0 < deltaY then 9/10 else 11/10
  let newZoom := max (1/10) (min 5 (e.zoom * delta))
  if newZoom ≠ e.zoom then { e with zoom := newZoom } else e

/-- `zoomIn()`: `Math.min(5, AppState.zoom * 1.2)`. -/
def zoomIn (e : Editor) : Editor :=
  let newZoom := min 5 (e.zoom * (12/10))
  if newZoom ≠ e.zoom then { e with zoom := newZoom } else e

/-- `zoomOut()`: `Math.max(0.1, AppState.zoom / 1.2)`. -/
def zoomOut (e : Editor) : Editor :=
  let newZoom := max (1/10) (e.zoom / (12/10))
  if newZoom ≠ e.zoom then { e with zoom := newZoom } else e

/-- `resetZoom()`. -/
def resetZoom (e : Editor) : Editor :=
  if e.zoom ≠ 1 then { e with zoom := 1 } else e

/-- `fitToScreen()`: bounding box over every drawing's start and end points,
then `zoom = Math.min(scaleX, scaleY, 5)` with `scale• = canvas• * 0.8 / size•`.
The JS fold starts from `±Infinity`; seeding the fold with the first
drawing's coordinates yields the same minimum/maximum because the list is
non-empty in that branch. -/
def fitToScreen (e : Editor) (canvasW canvasH : ℚ) : Editor :=
  match e.drawings with
  | [] => e
  | d0 :: _ =>
    let minX := e.drawings.foldl (fun m d => min m (min d.startX d.endX))
      (min d0.startX d0.endX)
    let minY := e.drawings.foldl (fun m d => min m (min d.startY d.endY))
      (min d0.startY d0.endY)
    let maxX := e.drawings.foldl (fun m d => max m (max d.startX d.endX))
      (max d0.startX d0.endX)
    let maxY := e.drawings.foldl (fun m d => max m (max d.startY d.endY))
      (max d0.startY d0.endY)
    let drawingWidth := maxX - minX
    let drawingHeight := maxY - minY
    if 0 < drawingWidth ∧ 0 < drawingHeight then
      let scaleX := canvasW * (8/10) / drawingWidth
      let scaleY := canvasH * (8/10) / drawingHeight
      { e with zoom := min (min scaleX scaleY) 5 }
    else e

/-- The snapping-relevant state of `Grid` (`Grid.js`): minor spacing `size`,
the `snapEnabled` flag and the pan offset.  Rendering-only fields (colors,
line widths, visibility) are omitted. -/
structure Grid where
  size : ℚ
  snapEnabled : Bool
  offsetX : ℚ
  offsetY : ℚ
deriving DecidableEq, Repr

/-- `Grid.snapToGrid(x, y)`: identity when snapping is disabled, otherwise
each coordinate is rounded to the nearest multiple of `size` relative to the
pan offset. -/
def Grid.snapToGrid (g : Grid) (x y : ℚ) : ℚ × ℚ :=
  if !g.snapEnabled then (x, y)
  else
    let adjustedX := x - g.offsetX
    let adjustedY := y - g.offsetY
    ((jsRound (adjustedX / g.size) : ℚ) * g.size + g.offsetX,
     (jsRound (adjustedY / g.size) : ℚ) * g.size + g.offsetY)

/-- A stroke performed with the default toolbar values (`#2563eb` stroke,
width 2, transparent fill, empty properties object). -/
def strokeDefault (e : Editor) (tool : String) (x0 y0 x1 y1 : ℚ) : Editor :=
  stroke e tool x0 y0 x1 y1 "#2563eb" 2 "transparent" {}

/-- The editor after committing one line stroke `(0,0) → (100,0)` (grid size
20, snapping on) starting from the fresh editor. -/
def oneStrokeState : Editor := strokeDefault initEditor "line" 0 0 100 0

/-- `oneStrokeState` after a second committed line stroke
`(0,100) → (100,100)`. -/
def twoStrokeState : Editor := strokeDefault oneStrokeState "line" 0 100 100 100

/-- A fresh editor after committing one line stroke `(0,0) → (60,0)`. -/
def oneCommitState : Editor := strokeDefault initEditor "line" 0 0 60 0

/-- A fresh editor whose scene holds one very large committed line
(`(0,0) → (10000,10000)`). -/
def largeSceneState : Editor :=
  { initEditor with drawings :=
      [{ tool := "line", startX := 0, startY := 0, endX := 10000,
         endY := 10000, color := "#2563eb", width := 2,
         fill := "transparent", properties := {} }] }

/-- A grid with spacing 20, snapping enabled and a pan offset of `(7, 0)`. -/
def gridExample : Grid :=
  { size := 20, snapEnabled := true, offsetX := 7, offsetY := 0 }

/-- The line committed by the stroke of `oneStrokeState`. -/
def lineDrawing : Drawing :=
  { tool := "line", startX := 0, startY := 0, endX := 100, endY := 0,
    color := "#2563eb", width := 2, fill := "transparent", properties := {} }

/-- The line committed by the second stroke of `twoStrokeState`. -/
def lineDrawing2 : Drawing :=
  { tool := "line", startX := 0, startY := 100, endX := 100, endY := 100,
    color := "#2563eb", width := 2, fill := "transparent", properties := {} }

/-- The line committed by the stroke of `oneCommitState`. -/
def lineDrawing60 : Drawing :=
  { tool := "line", startX := 0, startY := 0, endX := 60, endY := 0,
    color := "#2563eb", width := 2, fill := "transparent", properties := {} }

/-! ## Layer manager (`LayerManager.js`) -/

/-- A `Layer` object.  `shapes` holds the shape objects the layer owns;
shape objects are identified by a numeric handle standing for JS object
identity (`includes`/`indexOf` compare references). -/
structure Layer where
  id : String
  name : String
  visible : Bool
  locked : Bool
  opacity : ℚ
  color : String
  shapes : List ℕ
  index : ℕ
deriving DecidableEq, Repr

/-- The `options` argument of the `Layer` constructor; `none` stands for an
absent (`undefined`) property. -/
structure LayerOptions where
  visible : Option Bool := none
  locked : Option Bool := none
  opacity : Option ℚ := none
  color : Option String := none
  index : Option ℕ := none
deriving DecidableEq, Repr

/-- The `Layer` constructor.  `visible` is `options.visible !== false`;
`locked`, `opacity`, `color` and `index` use `||`, so a falsy provided value
(`false`, `0`, `""`) falls back to the default (for `locked` and `index` the
falsy value coincides with the default). -/
def mkLayer (id name : String) (o : LayerOptions) : Layer :=
  { id := id, name := name,
    visible := match o.visible with
      | some false => false
      | _ => true,
    locked := o.locked.getD false,
    opacity := match o.opacity with
      | some q => if q = 0 then 1 else q
      | none => 1,
    color := match o.color with
      | some c => if c = "" then "#000000" else c
      | none => "#000000",
    shapes := [],
    index := o.index.getD 0 }

/-- The `LayerManager` state.  `layers` is the insertion-ordered entry list
of the `id → Layer` `Map`; `shapeLayer` records the current value of the
`.layer` back-reference field of every shape object that has been written
(the field is only ever written, never read, by the manager). -/
structure LMState where
  layers : List Layer
  activeLayerId : Option String
  layerOrder : List String
  nextLayerId : ℕ
  shapeLayer : List (ℕ × Option String)
deriving DecidableEq, Repr

/-- Assignment `shape.layer = v` on the shape-object heap. -/
def heapSet (h : List (ℕ × Option String)) (s : ℕ) (v : Option String) :
    List (ℕ × Option String) :=
  if h.any (fun p => p.1 = s) then
    h.map (fun p => if p.1 = s then (s, v) else p)
  else h ++ [(s, v)]

/-- `Map.set(l.id, l)`: replace the entry with that key, or append a new
entry. -/
def mapSet (layers : List Layer) (l : Layer) : List Layer :=
  if layers.any (fun x => x.id = l.id) then
    layers.map (fun x => if x.id = l.id then l else x)
  else layers ++ [l]

/-- `this.layers.get(id)`. -/
def LMState.getLayer (st : LMState) (id : String) : Option Layer :=
  st.layers.find? (fun l => l.id = id)

/-- `createDefaultLayer()`. -/
def LMState.createDefaultLayer (st : LMState) : LMState :=
  let dl := mkLayer "layer_0" "Default Layer" { index := some 0 }
  { st with layers := mapSet st.layers dl,
            layerOrder := st.layerOrder ++ ["layer_0"],
            activeLayerId := some "layer_0" }

/-- `new LayerManager()`: empty maps, `nextLayerId = 1`, then the default
layer is created. -/
def initLM : LMState :=
  LMState.createDefaultLayer
    { layers := [], activeLayerId := none, layerOrder := [], nextLayerId := 1,
      shapeLayer := [] }

/-- `updateLayerIndices()`: `layerOrder.forEach((layerId, index) => ...)`,
assigning each position to the layer stored under that id (a later duplicate
id in `layerOrder` would win, as in the source). -/
def LMState.updateLayerIndices (st : LMState) : LMState :=
  let ls := st.layerOrder.enum.foldl
    (fun ls p =>
      ls.map (fun l => if l.id = p.2 then { l with index := p.1 } else l))
    st.layers
  { st with layers := ls }

/-- `createLayer(name, options)`: fresh id from the counter, insertion into
`layerOrder` at the requested index (default: the end), re-numbering of all
indices.  Returns the new layer's id together with the new state. -/
def LMState.createLayer (st : LMState) (name : String) (o : LayerOptions) :
    String × LMState :=
  let id := "layer_" ++ toString st.nextLayerId
  let st1 := { st with nextLayerId := st.nextLayerId + 1 }
  let index := o.index.getD st1.layerOrder.length
  let layer := mkLayer id name { o with index := some index }
  let st2 := { st1 with layers := mapSet st1.layers layer }
  let st3 := { st2 with layerOrder :=
      if st2.layerOrder.length ≤ index then st2.layerOrder ++ [id]
      else st2.layerOrder.insertIdx index id }
  (id, st3.updateLayerIndices)

/-- `layer.addShape(shape)` on a layer value: append if the reference is not
already present. -/
def layerPush (l : Layer) (s : ℕ) : Layer :=
  if s ∈ l.shapes then l else { l with shapes := l.shapes ++ [s] }

/-- One `layer.addShape(shape)` call performed on the layer object stored
under `targetId` (the entry is rewritten in place, as the JS mutates the
shared object).  The shape's `layer` field is assigned exactly when the
shape was not already in that layer's list. -/
def LMState.layerAddShape (st : LMState) (targetId : String) (s : ℕ) : LMState :=
  let assigns : Bool := match st.getLayer targetId with
    | some l => decide (s ∉ l.shapes)
    | none => false
  { st with
    layers := st.layers.map (fun l =>
      if l.id = targetId then layerPush l s else l),
    shapeLayer := if assigns then heapSet st.shapeLayer s (some targetId)
                  else st.shapeLayer }

/-- `removeShapeFromAllLayers(shape)`: `layer.removeShape(shape)` on every
layer; a removal splices out the first occurrence of the reference and sets
`shape.layer = null`. -/
def LMState.removeShapeFromAllLayers (st : LMState) (s : ℕ) : LMState :=
  let touched : Bool := st.layers.any (fun l => s ∈ l.shapes)
  { st with
    layers := st.layers.map (fun l =>
      if s ∈ l.shapes then { l with shapes := l.shapes.erase s } else l),
    shapeLayer := if touched then heapSet st.shapeLayer s none
                  else st.shapeLayer }

/-- `addShapeToLayer(shape, layerId = null)`: the target defaults to the
active layer (also for a falsy empty-string id); fails returning `false`
when the target layer is missing or locked, otherwise removes the shape
from every layer and appends it to the target. -/
def LMState.addShapeToLayer (st : LMState) (s : ℕ) (layerId : Option String) :
    Bool × LMState :=
  let targetLayerId : Option String := match layerId with
    | some t => if t = "" then st.activeLayerId else some t
    | none => st.activeLayerId
  match targetLayerId with
  | none => (false, st)
  | some tid =>
    match st.getLayer tid with
    | none => (false, st)
    | some layer =>
      if layer.locked then (false, st)
      else (true, (st.removeShapeFromAllLayers s).layerAddShape tid s)

/-- `moveShapeToLayer(shape, targetLayerId)`: removes the shape from all
layers first, then delegates to `addShapeToLayer`. -/
def LMState.moveShapeToLayer (st : LMState) (s : ℕ)
    (targetLayerId : Option String) : Bool × LMState :=
  (st.removeShapeFromAllLayers s).addShapeToLayer s targetLayerId

/-- The tail of `deleteLayer` once the doomed layer's shapes have been moved:
splice the id out of `layerOrder`, delete the `Map` entry, re-target the
active layer if it was the deleted one (`this.layerOrder[0] || null`), and
re-number the indices. -/
def deleteLayerTail (st1 : LMState) (layerId : String) : LMState :=
  let st2 : LMState := { st1 with layerOrder := st1.layerOrder.erase layerId }
  let st3 : LMState := { st2 with
    layers := st2.layers.filter (fun l => ¬(l.id = layerId)) }
  let st4 : LMState :=
    if st3.activeLayerId = some layerId then
      { st3 with activeLayerId :=
          match st3.layerOrder with
          | h :: _ => if h = "" then none else some h
          | [] => none }
    else st3
  st4.updateLayerIndices

/-- `deleteLayer(layerId)`.  Returns `none` when the JS throws a `TypeError`:
`getDefaultLayer()` is `undefined` (the default layer `layer_0` was deleted
earlier), the doomed layer is not the default and owns at least one shape,
so `defaultLayer.addShape(...)` dereferences `undefined`.  The throw happens
on the first `forEach` iteration, before any mutation, so the manager state
is unchanged in that case. -/
def LMState.deleteLayer (st : LMState) (layerId : String) :
    Option (Bool × LMState) :=
  match st.getLayer layerId with
  | none => some (false, st)
  | some layer =>
    if st.layers.length ≤ 1 then some (false, st)
    else
      let moved : Option LMState :=
        if layerId = "layer_0" then
          match st.layers.find? (fun l => ¬(l.id = layerId)) with
          | some other =>
              some (layer.shapes.foldl
                (fun acc s => acc.layerAddShape other.id s) st)
          | none => some st
        else
          match st.getLayer "layer_0" with
          | some _ =>
              some (layer.shapes.foldl
                (fun acc s => acc.layerAddShape "layer_0" s) st)
          | none => if layer.shapes = [] then some st else none
      match moved with
      | none => none
      | some st1 => some (true, deleteLayerTail st1 layerId)

/-- `setLayerOpacity(layerId, opacity)`: clamps into `[0, 1]`. -/
def LMState.setLayerOpacity (st : LMState) (layerId : String) (opacity : ℚ) :
    Bool × LMState :=
  match st.getLayer layerId with
  | some _ =>
      (true, { st with layers := st.layers.map (fun l =>
          if l.id = layerId then { l with opacity := max 0 (min 1 opacity) }
          else l) })
  | none => (false, st)

/-- `layer.toJSON()`. -/
structure LayerJSON where
  id : String
  name : String
  visible : Bool
  locked : Bool
  opacity : ℚ
  color : String
  index : ℕ
deriving DecidableEq, Repr

def Layer.toJSON (l : Layer) : LayerJSON :=
  { id := l.id, name := l.name, visible := l.visible, locked := l.locked,
    opacity := l.opacity, color := l.color, index := l.index }

/-- The export document of `exportLayers()` / argument of
`importLayers(data)`. -/
structure ExportData where
  layers : List LayerJSON
  layerOrder : List String
  activeLayerId : Option String
  nextLayerId : ℕ
deriving DecidableEq, Repr

/-- `exportLayers()`. -/
def LMState.exportLayers (st : LMState) : ExportData :=
  { layers := st.layers.map Layer.toJSON,
    layerOrder := st.layerOrder,
    activeLayerId := st.activeLayerId,
    nextLayerId := st.nextLayerId }

/-- The `new Layer(layerData.id, layerData.name, {...})` call inside
`importLayers`: the constructor's falsy defaults apply to the restored
option values. -/
def importLayerEntry (ld : LayerJSON) : Layer :=
  mkLayer ld.id ld.name
    { visible := some ld.visible, locked := some ld.locked,
      opacity := some ld.opacity, color := some ld.color,
      index := some ld.index }

/-- `importLayers(data)`.  The `if (data.layers)` / `if (data.layerOrder)`
guards are always taken here because a JS array (even empty) is truthy; the
`if (data.activeLayerId)` and `if (data.nextLayerId)` guards are falsy for
`null`/`""` and `0` respectively.  When neither active-layer branch applies,
the pre-import `activeLayerId` is kept. -/
def LMState.importLayers (st : LMState) (data : ExportData) : LMState :=
  let st1 : LMState := { st with layers := [], layerOrder := [] }
  let st2 := data.layers.foldl
    (fun acc ld => { acc with layers := mapSet acc.layers (importLayerEntry ld) })
    st1
  let st3 : LMState := { st2 with layerOrder := data.layerOrder }
  let st4 : LMState :=
    match data.activeLayerId with
    | some a =>
        if a ≠ "" ∧ (st3.getLayer a).isSome then
          { st3 with activeLayerId := some a }
        else match st3.layerOrder with
          | h :: _ => { st3 with activeLayerId := some h }
          | [] => st3
    | none =>
        match st3.layerOrder with
        | h :: _ => { st3 with activeLayerId := some h }
        | [] => st3
  let st5 : LMState := if data.nextLayerId ≠ 0 then
               { st4 with nextLayerId := data.nextLayerId }
             else st4
  if st5.layers.length = 0 then st5.createDefaultLayer else st5

/-- One call from the operation alphabet of claim C3. -/
inductive LMOp where
  | add (shape : ℕ) (layerId : Option String)
  | move (shape : ℕ) (layerId : Option String)
  | del (layerId : String)
deriving DecidableEq, Repr

/-- Apply one call; a `deleteLayer` call that throws mutates nothing before
the exception, so it leaves the state unchanged. -/
def LMState.applyOp (st : LMState) (op : LMOp) : LMState :=
  match op with
  | .add s lid => (st.addShapeToLayer s lid).2
  | .move s lid => (st.moveShapeToLayer s lid).2
  | .del lid =>
      match st.deleteLayer lid with
      | some r => r.2
      | none => st

/-- Apply a sequence of calls. -/
def LMState.applyOps (st : LMState) (ops : List LMOp) : LMState :=
  ops.foldl LMState.applyOp st

/-- Number of layers whose shape list contains the shape `s`. -/
def ownerCount (st : LMState) (s : ℕ) : ℕ :=
  st.layers.countP (fun l => decide (s ∈ l.shapes))

/-- Structural well-formedness of the layer store: the `Map` keys are unique
and no layer's shape list holds a reference twice (both hold in every state
the manager can build). -/
def LayersWF (st : LMState) : Prop :=
  (st.layers.map (fun l => l.id)).Nodup ∧ ∀ l ∈ st.layers, l.shapes.Nodup

/-- Every shape is owned by at most one layer. -/
def AtMostOneOwner (st : LMState) : Prop := ∀ s, ownerCount st s ≤ 1

/-- Well-formedness of the stacking order relative to the layer store:
ids appear once, `layerOrder` and the `Map` hold the same ids, and no layer
has the (falsy) empty-string id.  Every state the manager builds satisfies
this. -/
def OrderWF (st : LMState) : Prop :=
  st.layerOrder.Nodup ∧
  (∀ id ∈ st.layerOrder, ∃ l ∈ st.layers, l.id = id) ∧
  (∀ l ∈ st.layers, l.id ∈ st.layerOrder) ∧
  (∀ l ∈ st.layers, l.id ≠ "")

/-- A reachable manager on which `deleteLayer` throws: create `layer_1` and
`layer_2`, delete the default `layer_0`, then put shape 7 into `layer_1`.
Deleting `layer_1` now dereferences the missing default layer. -/
def crashLM : LMState :=
  let t1 := (initLM.createLayer "A" {}).2
  let t2 := (t1.createLayer "B" {}).2
  let t3 := match t2.deleteLayer "layer_0" with
    | some r => r.2
    | none => t2
  (t3.addShapeToLayer 7 (some "layer_1")).2

/-- Two layers (`layer_0`, the created `layer_1` named "Walls") with shape 4
owned by `layer_1`. -/
def c4LM : LMState :=
  ((initLM.createLayer "Walls" {}).2.addShapeToLayer 4 (some "layer_1")).2

/-- A manager with a freshly created locked layer `layer_1`. -/
def lockedLM : LMState :=
  (initLM.createLayer "Locked Layer" { locked := some true }).2

/-- A manager whose default layer's opacity has been set to 0 via
`setLayerOpacity`. -/
def opacityZeroLM : LMState := (initLM.setLayerOpacity "layer_0" 0).2

/-! ## Theorems -/

theorem oneStrokeState_eval : oneStrokeState =
    { drawings := [lineDrawing], history := [[]], historyIndex := 0,
      isDrawing := false, currentPreview := none, startX := 0, startY := 0,
      zoom := 1, gridSize := 20, snapToGrid := true } := by
  unfold oneStrokeState strokeDefault stroke
  norm_num +decide [handleMouseDown, handleMouseMove, handleMouseUp, saveState,
    truncatedHistory, jsTake, snapToGridCoord, jsRound, isValidDrawing,
    maxHistorySize, initEditor, lineDrawing]

theorem twoStrokeState_eval : twoStrokeState =
    { drawings := [lineDrawing, lineDrawing2],
      history := [[], [lineDrawing]], historyIndex := 1,
      isDrawing := false, currentPreview := none, startX := 0, startY := 100,
      zoom := 1, gridSize := 20, snapToGrid := true } := by
  unfold twoStrokeState strokeDefault stroke
  rw [oneStrokeState_eval]
  norm_num +decide [handleMouseDown, handleMouseMove, handleMouseUp, saveState,
    truncatedHistory, jsTake, snapToGridCoord, jsRound, isValidDrawing,
    maxHistorySize, lineDrawing, lineDrawing2]

theorem oneCommitState_eval : oneCommitState =
    { drawings := [lineDrawing60], history := [[]], historyIndex := 0,
      isDrawing := false, currentPreview := none, startX := 0, startY := 0,
      zoom := 1, gridSize := 20, snapToGrid := true } := by
  unfold oneCommitState strokeDefault stroke
  norm_num +decide [handleMouseDown, handleMouseMove, handleMouseUp, saveState,
    truncatedHistory, jsTake, snapToGridCoord, jsRound, isValidDrawing,
    maxHistorySize, initEditor, lineDrawing60]

/-- C1: after a single committed stroke from the fresh editor the scene holds
the committed line with its endpoint snapped to `(100, 0)`, yet `undo()` is a
no-op (the snapshot pushed at pointer-down was the pre-stroke state and the
committed state itself is never pushed, so `historyIndex = 0` and
`canUndo()` is false); after a second committed stroke, `undo()` drops the
scene to the empty snapshot (removing both shapes) and the immediate
`redo()` yields the one-shape scene, not the two-shape scene that was
current just before the undo. -/
theorem c1_undo_redo_divergence :
    oneStrokeState.drawings = [lineDrawing] ∧
    canUndo oneStrokeState = false ∧
    undo oneStrokeState = oneStrokeState ∧
    twoStrokeState.drawings = [lineDrawing, lineDrawing2] ∧
    (undo twoStrokeState).drawings = [] ∧
    (redo (undo twoStrokeState)).drawings ≠ twoStrokeState.drawings := by
  rw [oneStrokeState_eval, twoStrokeState_eval]
  norm_num +decide [undo, redo, canUndo, canRedo, lineDrawing, lineDrawing2]

/-- C2: a sequence of `N = 1` valid stroke commits followed by `N = 1`
`undo()` calls, starting from the fresh editor whose drawings list is empty,
leaves the committed shape in the drawings list: the undo is a no-op because
the only history snapshot is the pre-stroke state and the cursor is already
at index 0.  The result is not content-equal to the pre-sequence state. -/
theorem c2_commit_undo_divergence :
    initEditor.drawings = [] ∧
    oneCommitState.drawings = [lineDrawing60] ∧
    undo oneCommitState = oneCommitState ∧
    (undo oneCommitState).drawings ≠ initEditor.drawings := by
  rw [oneCommitState_eval]
  norm_num +decide [undo, canUndo, initEditor, lineDrawing60]

theorem jsRound_intCast (k : ℤ) : jsRound (k : ℚ) = k := by
  unfold jsRound
  rw [Int.floor_int_add]
  norm_num

theorem length_jsTake (l : List α) (n : ℤ) :
    (jsTake l n).length
      = min (if n < 0 then ((l.length : ℤ) + n).toNat else n.toNat) l.length := by
  unfold jsTake
  split <;> simp [List.length_take]

/-- C6: on pointer-up with a provisional drawing present, the drawing is
appended to the scene exactly when `isValidDrawing` accepts it and the scene
is left unchanged otherwise; validity is the variant-specific minimum-size
rule (rectangle: both absolute extents above 5; circle and line: squared
Euclidean size above 25, i.e. radius/length above 5; text: always; any other
tool: never).  A 3×3 rectangle drag is discarded and a 10×10 one is kept. -/
theorem c6_commit_iff_valid (e : Editor) (p : Drawing)
    (hdraw : e.isDrawing = true) (hp : e.currentPreview = some p) :
    ((handleMouseUp e).drawings
        = if isValidDrawing p then e.drawings ++ [p] else e.drawings) ∧
    (isValidDrawing p = true ↔
      (p.tool = "rectangle" ∧ 5 < |p.endX - p.startX| ∧ 5 < |p.endY - p.startY|) ∨
      (p.tool = "circle" ∧ 25 < (p.endX - p.startX) ^ 2 + (p.endY - p.startY) ^ 2) ∨
      (p.tool = "line" ∧ 25 < (p.endX - p.startX) ^ 2 + (p.endY - p.startY) ^ 2) ∨
      p.tool = "text") ∧
    isValidDrawing
      { tool := "rectangle", startX := 0, startY := 0, endX := 3, endY := 3,
        color := "#2563eb", width := 2, fill := "transparent",
        properties := {} } = false ∧
    isValidDrawing
      { tool := "rectangle", startX := 0, startY := 0, endX := 10, endY := 10,
        color := "#2563eb", width := 2, fill := "transparent",
        properties := {} } = true := by
  refine ⟨?_, ?_, by norm_num [isValidDrawing], by norm_num [isValidDrawing]⟩
  · unfold handleMouseUp
    rw [hdraw, hp]
    by_cases hv : isValidDrawing p <;> simp [hv]
  · unfold isValidDrawing
    split_ifs with h1 h2 h3 h4 <;> simp_all

/-- Witness for C6 at a concrete editor: a 10×10 rectangle preview on
pointer-up is appended to the (empty) scene. -/
theorem c6_witness :
    (handleMouseUp
      { initEditor with isDrawing := true, currentPreview := some (
          { tool := "rectangle", startX := 0, startY := 0, endX := 10,
            endY := 10, color := "#2563eb", width := 2, fill := "transparent",
            properties := {} }) }).drawings
      = (if isValidDrawing
            { tool := "rectangle", startX := 0, startY := 0, endX := 10,
              endY := 10, color := "#2563eb", width := 2,
              fill := "transparent", properties := {} } then
           initEditor.drawings ++
             [{ tool := "rectangle", startX := 0, startY := 0, endX := 10,
                endY := 10, color := "#2563eb", width := 2,
                fill := "transparent", properties := {} }]
         else initEditor.drawings) :=
  (c6_commit_iff_valid _ _ rfl rfl).1

/-- C7 counterexample: from a reachable zoom of 1 (inside `[0.1, 5]`), a
single `fitToScreen()` on an 800×600 canvas showing one large line sets the
zoom to `480·0.8/10000 = 6/125 = 0.048`, strictly below the claimed lower
bound 0.1 — `fitToScreen` caps the zoom at 5 but never clamps it from
below. -/
theorem c7_counterexample :
    (1/10 : ℚ) ≤ largeSceneState.zoom ∧ largeSceneState.zoom ≤ 5 ∧
    (fitToScreen largeSceneState 800 600).zoom = 6/125 ∧
    (fitToScreen largeSceneState 800 600).zoom < 1/10 := by
  norm_num [largeSceneState, initEditor, fitToScreen]

/-- C7 as amended: starting from a zoom inside `[0.1, 5]`, each of wheel
zoom, `zoomIn()`, `zoomOut()` and `resetZoom()` leaves the zoom inside
`[0.1, 5]`; `fitToScreen()` keeps the zoom at most 5 but does not enforce
the lower bound. -/
theorem c7_zoom_bounds (e : Editor) (dy w h : ℚ)
    (hlo : 1/10 ≤ e.zoom) (hhi : e.zoom ≤ 5) :
    (1/10 ≤ (handleWheel e dy).zoom ∧ (handleWheel e dy).zoom ≤ 5) ∧
    (1/10 ≤ (zoomIn e).zoom ∧ (zoomIn e).zoom ≤ 5) ∧
    (1/10 ≤ (zoomOut e).zoom ∧ (zoomOut e).zoom ≤ 5) ∧
    (1/10 ≤ (resetZoom e).zoom ∧ (resetZoom e).zoom ≤ 5) ∧
    (fitToScreen e w h).zoom ≤ 5 := by
  have hdiv : e.zoom / (12/10) ≤ 5 :=
    le_trans (div_le_self (by linarith) (by norm_num)) hhi
  refine ⟨?_, ?_, ?_, ?_, ?_⟩
  · unfold handleWheel
    dsimp only
    split_ifs <;>
      first
      | exact ⟨hlo, hhi⟩
      | exact ⟨le_max_left _ _, max_le (by norm_num) (min_le_left _ _)⟩
  · unfold zoomIn
    dsimp only
    split_ifs
    · exact ⟨le_min (by norm_num) (by linarith), min_le_left _ _⟩
    · exact ⟨hlo, hhi⟩
  · unfold zoomOut
    dsimp only
    split_ifs
    · exact ⟨le_max_left _ _, max_le (by norm_num) hdiv⟩
    · exact ⟨hlo, hhi⟩
  · unfold resetZoom
    split_ifs
    · exact ⟨by norm_num, by norm_num⟩
    · exact ⟨hlo, hhi⟩
  · unfold fitToScreen
    split
    · exact hhi
    · dsimp only
      split_ifs
      · exact min_le_right _ _
      · exact hhi

/-- Witness for C7 at a concrete input: the fresh editor has zoom 1, inside
`[0.1, 5]`, and every single zoom operation keeps the stated bounds. -/
theorem c7_zoom_bounds_witness :
    ((1/10 : ℚ) ≤ initEditor.zoom ∧ initEditor.zoom ≤ 5) ∧
    ((1/10 ≤ (handleWheel initEditor 1).zoom ∧ (handleWheel initEditor 1).zoom ≤ 5) ∧
     (1/10 ≤ (zoomIn initEditor).zoom ∧ (zoomIn initEditor).zoom ≤ 5) ∧
     (1/10 ≤ (zoomOut initEditor).zoom ∧ (zoomOut initEditor).zoom ≤ 5) ∧
     (1/10 ≤ (resetZoom initEditor).zoom ∧ (resetZoom initEditor).zoom ≤ 5) ∧
     (fitToScreen initEditor 800 600).zoom ≤ 5) :=
  ⟨⟨by norm_num [initEditor], by norm_num [initEditor]⟩,
   c7_zoom_bounds initEditor 1 800 600 (by norm_num [initEditor])
     (by norm_num [initEditor])⟩

/-- C8: `saveState` keeps the history at or below `maxHistorySize` whenever
it was within the bound before; when the unbounded push would exceed the
bound, the stored history is exactly the unbounded history with its oldest
snapshot removed and the cursor is one less than the unbounded cursor; and
in all cases `canUndo`/`canRedo` agree with what they would be without the
eviction. -/
theorem c8_history_capacity (e : Editor) (h : e.history.length ≤ maxHistorySize) :
    (saveState e).history.length ≤ maxHistorySize ∧
    (maxHistorySize < (saveStateNoEvict e).history.length →
      (saveState e).history = (saveStateNoEvict e).history.tail ∧
      (saveState e).historyIndex = (saveStateNoEvict e).historyIndex - 1) ∧
    canUndo (saveState e) = canUndo (saveStateNoEvict e) ∧
    canRedo (saveState e) = canRedo (saveStateNoEvict e) := by
  have htr : (truncatedHistory e).length ≤ e.history.length := by
    unfold truncatedHistory jsTake
    split
    · split <;> · rw [List.length_take]; exact min_le_right _ _
    · exact le_refl _
  have hh : e.history.length ≤ 50 := by simpa [maxHistorySize] using h
  unfold saveState saveStateNoEvict
  dsimp only
  by_cases hev : maxHistorySize < (truncatedHistory e ++ [e.drawings]).length
  · have hev' : (truncatedHistory e).length = 50 := by
      simp only [maxHistorySize, List.length_append, List.length_singleton] at hev
      omega
    have hc : ¬(e.historyIndex < (e.history.length : ℤ) - 1) := by
      intro hcon
      have hx := hev'
      unfold truncatedHistory at hx
      rw [if_pos hcon] at hx
      unfold jsTake at hx
      split at hx <;>
        · rw [List.length_take] at hx
          omega
    have hEq : truncatedHistory e = e.history := by
      unfold truncatedHistory
      rw [if_neg hc]
    have hlen50 : e.history.length = 50 := by rw [← hEq]; exact hev'
    have hidx : (49 : ℤ) ≤ e.historyIndex := by
      rw [hlen50] at hc
      omega
    rw [if_pos hev]
    refine ⟨?_, fun _ => ⟨rfl, by dsimp only; omega⟩, ?_, ?_⟩
    · dsimp only
      rw [List.length_tail, List.length_append]
      simp only [List.length_singleton, hev', maxHistorySize]
      omega
    · unfold canUndo
      dsimp only
      rw [decide_eq_decide]
      constructor <;> intro <;> omega
    · unfold canRedo
      dsimp only
      rw [decide_eq_decide]
      simp only [List.length_tail, List.length_append, List.length_singleton,
        hev']
      constructor <;> intro <;> omega
  · rw [if_neg hev]
    refine ⟨not_lt.mp hev, fun hcon => absurd hcon hev, rfl, rfl⟩

/-- Witness for C8 at a concrete input: the fresh editor's empty history is
within the bound, and `saveState` behaves as stated there. -/
theorem c8_history_capacity_witness :
    initEditor.history.length ≤ maxHistorySize ∧
    ((saveState initEditor).history.length ≤ maxHistorySize ∧
     (maxHistorySize < (saveStateNoEvict initEditor).history.length →
       (saveState initEditor).history = (saveStateNoEvict initEditor).history.tail ∧
       (saveState initEditor).historyIndex = (saveStateNoEvict initEditor).historyIndex - 1) ∧
     canUndo (saveState initEditor) = canUndo (saveStateNoEvict initEditor) ∧
     canRedo (saveState initEditor) = canRedo (saveStateNoEvict initEditor)) :=
  ⟨by decide, c8_history_capacity initEditor (by decide)⟩

/-- C9: with a positive grid size, `Grid.snapToGrid` is idempotent (for any
pan offset, snapping enabled or not), and so is `CanvasDrawing`'s
`snapToGridCoord`: snapping an already snapped coordinate returns it
unchanged. -/
theorem c9_snap_idempotent (g : Grid) (x y : ℚ) (e : Editor) (c : ℚ)
    (hg : 0 < g.size) (he : 0 < e.gridSize) :
    g.snapToGrid (g.snapToGrid x y).1 (g.snapToGrid x y).2 = g.snapToGrid x y ∧
    snapToGridCoord e (snapToGridCoord e c) = snapToGridCoord e c := by
  have key : ∀ s v : ℚ, s ≠ 0 →
      (jsRound (((jsRound v : ℚ) * s) / s) : ℚ) = (jsRound v : ℚ) := by
    intro s v hs
    rw [mul_div_cancel_right₀ _ hs, jsRound_intCast]
  constructor
  · unfold Grid.snapToGrid
    cases hsnap : g.snapEnabled
    · simp [hsnap]
    · simp only [hsnap, Bool.not_true, Bool.false_eq_true, if_false]
      rw [add_sub_cancel_right, add_sub_cancel_right,
        key _ _ (ne_of_gt hg), key _ _ (ne_of_gt hg)]
  · unfold snapToGridCoord
    rw [mul_div_cancel_right₀ _ (ne_of_gt he), jsRound_intCast]

/-- Witness for C9 at a concrete input: grid spacing 20 with pan offset
`(7, 0)` and the fresh editor's grid size 20 are positive, and snapping
`(33, -12)` (and the editor coordinate 47) twice equals snapping once. -/
theorem c9_snap_idempotent_witness :
    (0 : ℚ) < gridExample.size ∧ (0 : ℚ) < initEditor.gridSize ∧
    (gridExample.snapToGrid (gridExample.snapToGrid 33 (-12)).1
        (gridExample.snapToGrid 33 (-12)).2 = gridExample.snapToGrid 33 (-12) ∧
     snapToGridCoord initEditor (snapToGridCoord initEditor 47)
        = snapToGridCoord initEditor 47) :=
  ⟨by norm_num [gridExample], by norm_num [initEditor],
   c9_snap_idempotent gridExample 33 (-12) initEditor 47
     (by norm_num [gridExample]) (by norm_num [initEditor])⟩

theorem importLayerEntry_id (ld : LayerJSON) : (importLayerEntry ld).id = ld.id := rfl

theorem mapSet_append (ls : List Layer) (l : Layer)
    (h : ∀ x ∈ ls, x.id ≠ l.id) : mapSet ls l = ls ++ [l] := by
  have h' : ¬(ls.any (fun x => x.id = l.id) = true) := by
    simp only [List.any_eq_true, decide_eq_true_eq]
    push_neg
    exact h
  unfold mapSet
  rw [if_neg h']

theorem import_fold (lds : List LayerJSON) (acc : LMState)
    (hfresh : ∀ ld ∈ lds, ∀ l ∈ acc.layers, l.id ≠ ld.id)
    (hnd : (lds.map (fun ld => ld.id)).Nodup) :
    lds.foldl (fun a ld => { a with layers := mapSet a.layers (importLayerEntry ld) }) acc
      = { acc with layers := acc.layers ++ lds.map importLayerEntry } := by
  induction lds generalizing acc with
  | nil => simp
  | cons ld rest ih =>
    simp only [List.map_cons, List.nodup_cons] at hnd
    have hm : mapSet acc.layers (importLayerEntry ld)
        = acc.layers ++ [importLayerEntry ld] := by
      apply mapSet_append
      intro x hx
      rw [importLayerEntry_id]
      exact hfresh ld (List.mem_cons_self _ _) x hx
    have hfresh' : ∀ ld' ∈ rest,
        ∀ l ∈ (acc.layers ++ [importLayerEntry ld]), l.id ≠ ld'.id := by
      intro ld' hld' l hl
      rcases List.mem_append.mp hl with h1 | h2
      · exact hfresh ld' (List.mem_cons_of_mem _ hld') l h1
      · have hle : l = importLayerEntry ld := by simpa using h2
        subst hle
        rw [importLayerEntry_id]
        intro hcontra
        exact hnd.1 (hcontra ▸ List.mem_map_of_mem _ hld')
    have ihh := ih { acc with layers := acc.layers ++ [importLayerEntry ld] }
      (by exact hfresh') hnd.2
    simp only [List.foldl_cons]
    rw [hm, ihh]
    simp

theorem importLayerEntry_toJSON (l : Layer) (hop : l.opacity ≠ 0)
    (hcol : l.color ≠ "") :
    importLayerEntry l.toJSON =
      { id := l.id, name := l.name, visible := l.visible, locked := l.locked,
        opacity := l.opacity, color := l.color, shapes := [],
        index := l.index } := by
  obtain ⟨i, nm, vis, lk, op, col, shp, idx⟩ := l
  dsimp at hop hcol ⊢
  unfold importLayerEntry mkLayer Layer.toJSON
  cases vis <;> simp [hop, hcol]

/-- C5 as amended: `importLayers(exportLayers())` reproduces `layerOrder`,
`activeLayerId`, `nextLayerId` and every layer's `id`, `name`, `visible`,
`locked`, `opacity` and `color`, provided no layer carries a falsy `opacity`
(0) or `color` (`""`) — the `Layer` constructor's `||` defaults replace
those on import — and the manager is well-formed (unique ids, a non-empty
active layer id that resolves, a non-zero id counter). -/
theorem c5_roundtrip (st : LMState) (a : String)
    (hids : (st.layers.map (fun l => l.id)).Nodup)
    (hop : ∀ l ∈ st.layers, l.opacity ≠ 0)
    (hcol : ∀ l ∈ st.layers, l.color ≠ "")
    (hnext : st.nextLayerId ≠ 0)
    (hact : st.activeLayerId = some a)
    (ha : a ≠ "")
    (hamem : (st.getLayer a).isSome) :
    (st.importLayers st.exportLayers).layerOrder = st.layerOrder ∧
    (st.importLayers st.exportLayers).activeLayerId = st.activeLayerId ∧
    (st.importLayers st.exportLayers).nextLayerId = st.nextLayerId ∧
    (st.importLayers st.exportLayers).layers.map
        (fun l => (l.id, l.name, l.visible, l.locked, l.opacity, l.color))
      = st.layers.map
        (fun l => (l.id, l.name, l.visible, l.locked, l.opacity, l.color)) := by
  have hre : (st.layers.map Layer.toJSON).map importLayerEntry
      = st.layers.map (fun l => importLayerEntry l.toJSON) := by
    rw [List.map_map]
    rfl
  obtain ⟨la, hla, hlaid⟩ : ∃ x ∈ st.layers, x.id = a := by
    have := (List.find?_isSome).mp hamem
    simpa using this
  have hmain : st.importLayers st.exportLayers
      = { st with layers := st.layers.map (fun l => importLayerEntry l.toJSON),
                  activeLayerId := some a } := by
    have hfindSome : ∀ x : LMState,
        x.layers = st.layers.map (fun l => importLayerEntry l.toJSON) →
        (x.getLayer a).isSome := by
      intro x hx
      unfold LMState.getLayer
      rw [hx, List.find?_isSome]
      refine ⟨importLayerEntry la.toJSON, ?_, ?_⟩
      · exact List.mem_map_of_mem _ hla
      · simp [importLayerEntry_id, Layer.toJSON, hlaid]
    unfold LMState.importLayers LMState.exportLayers
    dsimp only
    rw [import_fold _ _ (fun ld _ l hl => absurd hl (List.not_mem_nil l))
      (by rw [List.map_map]; exact hids)]
    dsimp only
    rw [hre, hact]
    dsimp only
    split
    · split
      · split
        · rename_i hzero
          exfalso
          simp only [List.nil_append, List.length_map] at hzero
          rw [List.length_eq_zero] at hzero
          rw [hzero] at hla
          exact List.not_mem_nil la hla
        · simp
      · rename_i hcond
        exact absurd ⟨ha, hfindSome _ (by simp)⟩ hcond
    · rename_i hzero
      exact absurd hnext hzero
  rw [hmain]
  refine ⟨rfl, by rw [hact], rfl, ?_⟩
  dsimp only
  rw [List.map_map]
  apply List.map_congr_left
  intro l hl
  rw [Function.comp_apply, importLayerEntry_toJSON l (hop l hl) (hcol l hl)]

/-- C10: whenever `addShapeToLayer` returns `false` (missing or locked
resolved target), the entire manager state is unchanged: in particular no
layer's shape list is modified and no shape's `layer` field is written. -/
theorem c10_add_failure_no_change (st : LMState) (s : ℕ) (layerId : Option String)
    (hfail : (st.addShapeToLayer s layerId).1 = false) :
    (st.addShapeToLayer s layerId).2 = st ∧
    (st.addShapeToLayer s layerId).2.layers = st.layers ∧
    (st.addShapeToLayer s layerId).2.shapeLayer = st.shapeLayer := by
  have h : (st.addShapeToLayer s layerId).2 = st := by
    revert hfail
    unfold LMState.addShapeToLayer
    dsimp only
    split
    · intro _; rfl
    · split
      · intro _; rfl
      · split
        · intro _; rfl
        · intro hfalse; simp at hfalse
  exact ⟨h, by rw [h], by rw [h]⟩

/-- C5 counterexample: on the reachable manager whose default layer's
opacity was set to 0 via `setLayerOpacity`, the export/import round trip
does not reproduce the opacity — the `Layer` constructor's
`options.opacity || 1.0` turns the falsy 0 into 1. -/
theorem c5_counterexample :
    ((opacityZeroLM.getLayer "layer_0").map (fun l => l.opacity) = some 0) ∧
    (((opacityZeroLM.importLayers opacityZeroLM.exportLayers).getLayer
        "layer_0").map (fun l => l.opacity) = some 1) := by
  constructor <;>
    norm_num +decide [opacityZeroLM, initLM, LMState.createDefaultLayer, mkLayer,
      mapSet, LMState.setLayerOpacity, LMState.getLayer, LMState.importLayers,
      LMState.exportLayers, Layer.toJSON, importLayerEntry, heapSet]

/-- Witness for C5 at a concrete input: the fresh manager satisfies every
hypothesis of the round-trip theorem and the round trip reproduces its
state. -/
theorem c5_roundtrip_witness :
    ((initLM.layers.map (fun l => l.id)).Nodup) ∧
    (∀ l ∈ initLM.layers, l.opacity ≠ 0) ∧
    (∀ l ∈ initLM.layers, l.color ≠ "") ∧
    initLM.nextLayerId ≠ 0 ∧
    initLM.activeLayerId = some "layer_0" ∧
    ("layer_0" : String) ≠ "" ∧
    (initLM.getLayer "layer_0").isSome ∧
    ((initLM.importLayers initLM.exportLayers).layerOrder = initLM.layerOrder ∧
     (initLM.importLayers initLM.exportLayers).activeLayerId
        = initLM.activeLayerId ∧
     (initLM.importLayers initLM.exportLayers).nextLayerId
        = initLM.nextLayerId ∧
     (initLM.importLayers initLM.exportLayers).layers.map
         (fun l => (l.id, l.name, l.visible, l.locked, l.opacity, l.color))
       = initLM.layers.map
         (fun l => (l.id, l.name, l.visible, l.locked, l.opacity, l.color))) := by
  have h1 : (initLM.layers.map (fun l => l.id)).Nodup := by decide
  have h2 : ∀ l ∈ initLM.layers, l.opacity ≠ 0 := by
    norm_num [initLM, LMState.createDefaultLayer, mkLayer, mapSet]
  have h3 : ∀ l ∈ initLM.layers, l.color ≠ "" := by decide
  have h4 : initLM.nextLayerId ≠ 0 := by decide
  have h5 : initLM.activeLayerId = some "layer_0" := by decide
  have h6 : ("layer_0" : String) ≠ "" := by decide
  have h7 : (initLM.getLayer "layer_0").isSome := by decide
  exact ⟨h1, h2, h3, h4, h5, h6, h7,
    c5_roundtrip initLM "layer_0" h1 h2 h3 h4 h5 h6 h7⟩

/-- Witness for C10 at a concrete input: adding a shape to the freshly
created locked layer `layer_1` fails and changes nothing. -/
theorem c10_witness :
    (lockedLM.addShapeToLayer 5 (some "layer_1")).1 = false ∧
    ((lockedLM.addShapeToLayer 5 (some "layer_1")).2 = lockedLM ∧
     (lockedLM.addShapeToLayer 5 (some "layer_1")).2.layers = lockedLM.layers ∧
     (lockedLM.addShapeToLayer 5 (some "layer_1")).2.shapeLayer
        = lockedLM.shapeLayer) := by
  have h : (lockedLM.addShapeToLayer 5 (some "layer_1")).1 = false := by decide
  exact ⟨h, c10_add_failure_no_change lockedLM 5 (some "layer_1") h⟩

theorem countP_key_le_one (ls : List Layer) (tid : String)
    (h : (ls.map (fun l => l.id)).Nodup) :
    ls.countP (fun l => decide (l.id = tid)) ≤ 1 := by
  induction ls with
  | nil => simp
  | cons l rest ih =>
    simp only [List.map_cons, List.nodup_cons] at h
    rw [List.countP_cons]
    by_cases hl : l.id = tid
    · have hz : rest.countP (fun l => decide (l.id = tid)) = 0 := by
        rw [List.countP_eq_zero]
        intro x hx
        simp only [decide_eq_true_eq]
        intro hxe
        refine h.1 ?_
        rw [hl, ← hxe]
        exact List.mem_map_of_mem _ hx
      simp [hl, hz]
    · have hd : decide (l.id = tid) = false := by simp [hl]
      rw [hd]
      simpa using ih h.2

theorem two_le_countP (ls : List Layer) (p : Layer → Bool) (a b : Layer)
    (ha : a ∈ ls) (hb : b ∈ ls) (hne : a ≠ b) (hpa : p a) (hpb : p b) :
    2 ≤ ls.countP p := by
  induction ls with
  | nil => cases ha
  | cons x rest ih =>
    rw [List.countP_cons]
    rcases List.mem_cons.mp ha with rfl | ha'
    · have hb' : b ∈ rest := by
        rcases List.mem_cons.mp hb with h | h
        · exact absurd h.symm hne
        · exact h
      have hpos : 0 < rest.countP p := List.countP_pos_iff.mpr ⟨b, hb', hpb⟩
      simp only [hpa, if_true]
      omega
    · rcases List.mem_cons.mp hb with rfl | hb'
      · have hpos : 0 < rest.countP p := List.countP_pos_iff.mpr ⟨a, ha', hpa⟩
        simp only [hpb, if_true]
        omega
      · have := ih ha' hb'
        omega

theorem layerPush_id (l : Layer) (s : ℕ) : (layerPush l s).id = l.id := by
  unfold layerPush
  split <;> rfl

theorem layerPush_shapes_nodup (l : Layer) (s : ℕ) (h : l.shapes.Nodup) :
    (layerPush l s).shapes.Nodup := by
  unfold layerPush
  split
  · exact h
  · rename_i hmem
    simp [List.nodup_append, h, hmem]

theorem mem_layerPush (l : Layer) (s t : ℕ) :
    t ∈ (layerPush l s).shapes ↔ t ∈ l.shapes ∨ t = s := by
  unfold layerPush
  split
  · rename_i hmem
    constructor
    · exact Or.inl
    · rintro (h | rfl)
      · exact h
      · exact hmem
  · simp

theorem foldl_layerPush_id (moved : List ℕ) (l : Layer) :
    (moved.foldl layerPush l).id = l.id := by
  induction moved generalizing l with
  | nil => rfl
  | cons s rest ih => rw [List.foldl_cons, ih, layerPush_id]

theorem mem_foldl_layerPush (moved : List ℕ) (l : Layer) (t : ℕ) :
    t ∈ (moved.foldl layerPush l).shapes ↔ t ∈ l.shapes ∨ t ∈ moved := by
  induction moved generalizing l with
  | nil => simp
  | cons s rest ih =>
    rw [List.foldl_cons, ih, mem_layerPush, List.mem_cons]
    tauto

theorem foldl_layerPush_shapes_nodup (moved : List ℕ) (l : Layer)
    (h : l.shapes.Nodup) : (moved.foldl layerPush l).shapes.Nodup := by
  induction moved generalizing l with
  | nil => exact h
  | cons s rest ih => exact ih _ (layerPush_shapes_nodup _ _ h)

theorem remove_layers (st : LMState) (s : ℕ) :
    (st.removeShapeFromAllLayers s).layers
      = st.layers.map (fun l =>
          if s ∈ l.shapes then { l with shapes := l.shapes.erase s } else l) := rfl

theorem layerAddShape_layers (st : LMState) (tid : String) (s : ℕ) :
    (st.layerAddShape tid s).layers
      = st.layers.map (fun l => if l.id = tid then layerPush l s else l) := rfl

theorem removeF_id (l : Layer) (s : ℕ) :
    (if s ∈ l.shapes then { l with shapes := l.shapes.erase s } else l).id
      = l.id := by
  split <;> rfl

theorem removeF_nodup (l : Layer) (s : ℕ) (h : l.shapes.Nodup) :
    (if s ∈ l.shapes then { l with shapes := l.shapes.erase s } else l).shapes.Nodup := by
  split
  · exact h.erase s
  · exact h

theorem not_mem_removeF (l : Layer) (s : ℕ) (h : l.shapes.Nodup) :
    s ∉ (if s ∈ l.shapes then { l with shapes := l.shapes.erase s } else l).shapes := by
  split
  · rename_i hmem
    simp [h.mem_erase_iff]
  · rename_i hmem
    exact hmem

theorem mem_removeF_of_ne (l : Layer) (s t : ℕ) (hts : t ≠ s) :
    (t ∈ (if s ∈ l.shapes then { l with shapes := l.shapes.erase s } else l).shapes)
      ↔ t ∈ l.shapes := by
  split
  · simp [List.mem_erase_of_ne hts]
  · exact Iff.rfl

theorem remove_WF (st : LMState) (s : ℕ) (h : LayersWF st) :
    LayersWF (st.removeShapeFromAllLayers s) := by
  obtain ⟨hids, hnd⟩ := h
  constructor
  · rw [remove_layers, List.map_map]
    have : ((fun l => l.id) ∘ fun l =>
        if s ∈ l.shapes then { l with shapes := l.shapes.erase s } else l)
        = fun l : Layer => l.id := by
      funext l
      exact removeF_id l s
    rw [this]
    exact hids
  · intro l' hl'
    rw [remove_layers] at hl'
    obtain ⟨l, hl, rfl⟩ := List.mem_map.mp hl'
    exact removeF_nodup l s (hnd l hl)

theorem ownerCount_remove_self (st : LMState) (s : ℕ)
    (hnd : ∀ l ∈ st.layers, l.shapes.Nodup) :
    ownerCount (st.removeShapeFromAllLayers s) s = 0 := by
  unfold ownerCount
  rw [remove_layers, List.countP_map, List.countP_eq_zero]
  intro l hl
  simp only [Function.comp_apply, decide_eq_true_eq]
  exact not_mem_removeF l s (hnd l hl)

theorem ownerCount_remove_of_ne (st : LMState) (s t : ℕ) (hts : t ≠ s) :
    ownerCount (st.removeShapeFromAllLayers s) t = ownerCount st t := by
  unfold ownerCount
  rw [remove_layers, List.countP_map]
  apply List.countP_congr
  intro l hl
  simp only [Function.comp_apply, decide_eq_true_eq]
  exact mem_removeF_of_ne l s t hts

theorem remove_AMO (st : LMState) (s : ℕ) (h : LayersWF st)
    (hamo : AtMostOneOwner st) :
    AtMostOneOwner (st.removeShapeFromAllLayers s) := by
  intro t
  by_cases hts : t = s
  · rw [hts, ownerCount_remove_self st s h.2]
    omega
  · rw [ownerCount_remove_of_ne st s t hts]
    exact hamo t

theorem layerAddShape_WF (st : LMState) (tid : String) (s : ℕ)
    (h : LayersWF st) : LayersWF (st.layerAddShape tid s) := by
  obtain ⟨hids, hnd⟩ := h
  constructor
  · rw [layerAddShape_layers, List.map_map]
    have : ((fun l => l.id) ∘ fun l => if l.id = tid then layerPush l s else l)
        = fun l : Layer => l.id := by
      funext l
      simp only [Function.comp_apply]
      split
      · exact layerPush_id l s
      · rfl
    rw [this]
    exact hids
  · intro l' hl'
    rw [layerAddShape_layers] at hl'
    obtain ⟨l, hl, rfl⟩ := List.mem_map.mp hl'
    split
    · exact layerPush_shapes_nodup l s (hnd l hl)
    · exact hnd l hl

theorem ownerCount_layerAddShape_self (st : LMState) (tid : String) (s : ℕ)
    (hids : (st.layers.map (fun l => l.id)).Nodup)
    (hnone : ∀ l ∈ st.layers, s ∉ l.shapes) :
    ownerCount (st.layerAddShape tid s) s ≤ 1 := by
  unfold ownerCount
  rw [layerAddShape_layers, List.countP_map]
  have hcong : st.layers.countP
      ((fun l => decide (s ∈ l.shapes)) ∘ fun l => if l.id = tid then layerPush l s else l)
      = st.layers.countP (fun l => decide (l.id = tid)) := by
    apply List.countP_congr
    intro l hl
    simp only [Function.comp_apply, decide_eq_true_eq]
    split
    · rename_i hid
      rw [mem_layerPush]
      simp [hid, hnone l hl]
    · rename_i hid
      simp [hid, hnone l hl]
  rw [hcong]
  exact countP_key_le_one st.layers tid hids

theorem ownerCount_layerAddShape_of_ne (st : LMState) (tid : String) (s t : ℕ)
    (hts : t ≠ s) :
    ownerCount (st.layerAddShape tid s) t = ownerCount st t := by
  unfold ownerCount
  rw [layerAddShape_layers, List.countP_map]
  apply List.countP_congr
  intro l hl
  simp only [Function.comp_apply, decide_eq_true_eq]
  split
  · rw [mem_layerPush]
    simp [hts]
  · exact Iff.rfl

theorem addShapeToLayer_WF_AMO (st : LMState) (s : ℕ) (lid : Option String)
    (h : LayersWF st) (hamo : AtMostOneOwner st) :
    LayersWF (st.addShapeToLayer s lid).2 ∧
    AtMostOneOwner (st.addShapeToLayer s lid).2 := by
  unfold LMState.addShapeToLayer
  dsimp only
  split
  · exact ⟨h, hamo⟩
  · split
    · exact ⟨h, hamo⟩
    · split
      · exact ⟨h, hamo⟩
      · rename_i tid hlayer hlocked
        have h1 := remove_WF st s h
        refine ⟨layerAddShape_WF _ _ _ h1, ?_⟩
        intro t
        by_cases hts : t = s
        · subst hts
          apply ownerCount_layerAddShape_self _ _ _ h1.1
          intro l hl
          rw [remove_layers] at hl
          obtain ⟨l0, hl0, rfl⟩ := List.mem_map.mp hl
          exact not_mem_removeF l0 t (h.2 l0 hl0)
        · rw [ownerCount_layerAddShape_of_ne _ _ _ _ hts,
            ownerCount_remove_of_ne _ _ _ hts]
          exact hamo t

theorem moveShapeToLayer_WF_AMO (st : LMState) (s : ℕ) (lid : Option String)
    (h : LayersWF st) (hamo : AtMostOneOwner st) :
    LayersWF (st.moveShapeToLayer s lid).2 ∧
    AtMostOneOwner (st.moveShapeToLayer s lid).2 := by
  unfold LMState.moveShapeToLayer
  exact addShapeToLayer_WF_AMO _ _ _ (remove_WF st s h) (remove_AMO st s h hamo)

theorem moveFold_layers (moved : List ℕ) (st : LMState) (tid : String) :
    (moved.foldl (fun acc s => acc.layerAddShape tid s) st).layers
      = st.layers.map (fun l =>
          if l.id = tid then moved.foldl layerPush l else l) := by
  induction moved generalizing st with
  | nil =>
    have : (fun l : Layer =>
        if l.id = tid then ([] : List ℕ).foldl layerPush l else l)
        = fun l => l := by
      funext l
      simp [ite_self]
    simp [this]
  | cons s rest ih =>
    rw [List.foldl_cons, ih, layerAddShape_layers, List.map_map]
    apply List.map_congr_left
    intro l _
    simp only [Function.comp_apply]
    by_cases hid : l.id = tid
    · rw [if_pos hid, if_pos (by rw [layerPush_id]; exact hid), if_pos hid]
      rfl
    · rw [if_neg hid, if_neg hid, if_neg hid]

theorem foldlIdx_proj (ps : List (ℕ × String)) (ls : List Layer) :
    (ps.foldl (fun acc p => acc.map (fun l =>
        if l.id = p.2 then { l with index := p.1 } else l)) ls).map
          (fun l => (l.id, l.shapes))
      = ls.map (fun l => (l.id, l.shapes)) := by
  induction ps generalizing ls with
  | nil => rfl
  | cons p rest ih =>
    rw [List.foldl_cons, ih, List.map_map]
    apply List.map_congr_left
    intro l _
    simp only [Function.comp_apply]
    split <;> rfl

theorem updateIdx_proj (st : LMState) :
    st.updateLayerIndices.layers.map (fun l => (l.id, l.shapes))
      = st.layers.map (fun l => (l.id, l.shapes)) :=
  foldlIdx_proj st.layerOrder.enum st.layers

theorem ownerCount_eq_of_proj (st' st : LMState)
    (h : st'.layers.map (fun l => (l.id, l.shapes))
      = st.layers.map (fun l => (l.id, l.shapes))) (t : ℕ) :
    ownerCount st' t = ownerCount st t := by
  unfold ownerCount
  have h1 : st'.layers.countP (fun l => decide (t ∈ l.shapes))
      = (st'.layers.map (fun l => (l.id, l.shapes))).countP
          (fun q => decide (t ∈ q.2)) := by
    rw [List.countP_map]
    rfl
  rw [h1, h, List.countP_map]
  rfl

theorem ids_eq_of_proj (st' st : LMState)
    (h : st'.layers.map (fun l => (l.id, l.shapes))
      = st.layers.map (fun l => (l.id, l.shapes))) :
    st'.layers.map (fun l => l.id) = st.layers.map (fun l => l.id) := by
  have h' := congrArg (List.map Prod.fst) h
  rw [List.map_map, List.map_map] at h'
  exact h'

theorem shapes_nodup_of_proj (st' st : LMState)
    (h : st'.layers.map (fun l => (l.id, l.shapes))
      = st.layers.map (fun l => (l.id, l.shapes)))
    (hnd : ∀ l ∈ st.layers, l.shapes.Nodup) :
    ∀ l' ∈ st'.layers, l'.shapes.Nodup := by
  intro l' hl'
  have hmem : (l'.id, l'.shapes) ∈ st.layers.map (fun l => (l.id, l.shapes)) := by
    rw [← h]
    exact List.mem_map_of_mem _ hl'
  obtain ⟨l, hl, heq⟩ := List.mem_map.mp hmem
  have hs : l.shapes = l'.shapes := congrArg Prod.snd heq
  rw [← hs]
  exact hnd l hl

theorem deleteLayerTail_WF_AMO (stM : LMState) (lid : String)
    (hids : (stM.layers.map (fun l => l.id)).Nodup)
    (hnd : ∀ l ∈ stM.layers, l.shapes.Nodup)
    (hcount : ∀ t, stM.layers.countP
      (fun l => decide (t ∈ l.shapes) && decide (¬(l.id = lid))) ≤ 1) :
    LayersWF (deleteLayerTail stM lid) ∧
    AtMostOneOwner (deleteLayerTail stM lid) := by
  have hst4 : ∀ st4 : LMState,
      st4.layers = stM.layers.filter (fun l => ¬(l.id = lid)) →
      LayersWF st4.updateLayerIndices ∧
      AtMostOneOwner st4.updateLayerIndices := by
    intro st4 h4
    have hproj := updateIdx_proj st4
    constructor
    · constructor
      · rw [ids_eq_of_proj _ _ hproj, h4]
        exact ((List.filter_sublist _).map _).nodup hids
      · apply shapes_nodup_of_proj _ _ hproj
        intro l hl
        rw [h4] at hl
        exact hnd l (List.mem_of_mem_filter hl)
    · intro t
      rw [ownerCount_eq_of_proj _ _ hproj t]
      unfold ownerCount
      rw [h4, List.countP_filter]
      exact hcount t
  unfold deleteLayerTail
  dsimp only
  split
  · exact hst4 _ rfl
  · exact hst4 _ rfl

theorem moved_state_count (st : LMState) (layer : Layer) (tid lid : String)
    (h : LayersWF st) (hamo : AtMostOneOwner st)
    (hmem : layer ∈ st.layers) (hlayerid : layer.id = lid) (htid : tid ≠ lid) :
    ∀ t, (layer.shapes.foldl (fun acc s => acc.layerAddShape tid s) st).layers.countP
      (fun l => decide (t ∈ l.shapes) && decide (¬(l.id = lid))) ≤ 1 := by
  intro t
  rw [moveFold_layers, List.countP_map]
  by_cases hmoved : t ∈ layer.shapes
  · have hnotmem : ∀ l ∈ st.layers, l.id ≠ lid → t ∉ l.shapes := by
      intro l hl hlid htl
      have hne : layer ≠ l := by
        intro he
        rw [← he] at hlid
        exact hlid hlayerid
      have h2 := two_le_countP st.layers (fun l => decide (t ∈ l.shapes))
        layer l hmem hl hne (by simpa using hmoved) (by simpa using htl)
      have := hamo t
      unfold ownerCount at this
      omega
    have hcong : st.layers.countP
        ((fun l => decide (t ∈ l.shapes) && decide (¬(l.id = lid))) ∘
          fun l => if l.id = tid then layer.shapes.foldl layerPush l else l)
        = st.layers.countP (fun l => decide (l.id = tid)) := by
      apply List.countP_congr
      intro l hl
      simp only [Function.comp_apply, Bool.and_eq_true, decide_eq_true_eq]
      by_cases hid : l.id = tid
      · rw [if_pos hid]
        rw [mem_foldl_layerPush, foldl_layerPush_id]
        constructor
        · intro _
          exact hid
        · intro _
          refine ⟨Or.inr hmoved, ?_⟩
          rw [hid]
          exact htid
      · rw [if_neg hid]
        constructor
        · rintro ⟨htl, hlid⟩
          exact absurd htl (hnotmem l hl hlid)
        · intro hcontra
          exact absurd hcontra hid
    rw [hcong]
    exact countP_key_le_one st.layers tid h.1
  · have hle : st.layers.countP
        ((fun l => decide (t ∈ l.shapes) && decide (¬(l.id = lid))) ∘
          fun l => if l.id = tid then layer.shapes.foldl layerPush l else l)
        ≤ st.layers.countP (fun l => decide (t ∈ l.shapes)) := by
      apply List.countP_mono_left
      intro l hl
      simp only [Function.comp_apply, Bool.and_eq_true, decide_eq_true_eq]
      rintro ⟨htl, -⟩
      by_cases hid : l.id = tid
      · rw [if_pos hid, mem_foldl_layerPush] at htl
        rcases htl with hin | hin
        · simpa using hin
        · exact absurd hin hmoved
      · rw [if_neg hid] at htl
        simpa using htl
    have := hamo t
    unfold ownerCount at this
    omega

theorem moveFold_WF (moved : List ℕ) (st : LMState) (tid : String)
    (h : LayersWF st) :
    LayersWF (moved.foldl (fun acc s => acc.layerAddShape tid s) st) := by
  induction moved generalizing st with
  | nil => exact h
  | cons s rest ih => exact ih _ (layerAddShape_WF st tid s h)

theorem delete_nomove_count (st : LMState) (lid : String)
    (hamo : AtMostOneOwner st) :
    ∀ t, st.layers.countP
      (fun l => decide (t ∈ l.shapes) && decide (¬(l.id = lid))) ≤ 1 := by
  intro t
  have hle : st.layers.countP
      (fun l => decide (t ∈ l.shapes) && decide (¬(l.id = lid)))
      ≤ st.layers.countP (fun l => decide (t ∈ l.shapes)) := by
    apply List.countP_mono_left
    intro l hl
    simp only [Bool.and_eq_true]
    exact fun hx => hx.1
  have := hamo t
  unfold ownerCount at this
  omega

theorem deleteLayer_WF_AMO (st : LMState) (lid : String) (r : Bool × LMState)
    (h : LayersWF st) (hamo : AtMostOneOwner st)
    (hdel : st.deleteLayer lid = some r) :
    LayersWF r.2 ∧ AtMostOneOwner r.2 := by
  unfold LMState.deleteLayer at hdel
  split at hdel
  · cases hdel
    exact ⟨h, hamo⟩
  · rename_i layer hfind
    split at hdel
    · cases hdel
      exact ⟨h, hamo⟩
    · have hlayermem : layer ∈ st.layers := List.mem_of_find?_eq_some hfind
      have hlayerid : layer.id = lid := by
        have := List.find?_some hfind
        simpa using this
      dsimp only at hdel
      split at hdel
      · exact Option.noConfusion hdel
      · rename_i st1 hmoved
        cases hdel
        split at hmoved
        · rename_i hlid0
          split at hmoved
          · rename_i other hother
            cases hmoved
            have hotherid : other.id ≠ lid := by
              have := List.find?_some hother
              simpa using this
            exact deleteLayerTail_WF_AMO _ lid (moveFold_WF _ _ _ h).1
              (moveFold_WF _ _ _ h).2
              (moved_state_count st layer other.id lid h hamo hlayermem
                hlayerid hotherid)
          · cases hmoved
            exact deleteLayerTail_WF_AMO st lid h.1 h.2
              (delete_nomove_count st lid hamo)
        · rename_i hlid0
          split at hmoved
          · rename_i dl hdl
            cases hmoved
            have htid : "layer_0" ≠ lid := fun he => hlid0 he.symm
            exact deleteLayerTail_WF_AMO _ lid (moveFold_WF _ _ _ h).1
              (moveFold_WF _ _ _ h).2
              (moved_state_count st layer "layer_0" lid h hamo hlayermem
                hlayerid htid)
          · split at hmoved
            · cases hmoved
              exact deleteLayerTail_WF_AMO st lid h.1 h.2
                (delete_nomove_count st lid hamo)
            · exact Option.noConfusion hmoved

theorem applyOp_WF_AMO (st : LMState) (op : LMOp)
    (h : LayersWF st) (hamo : AtMostOneOwner st) :
    LayersWF (st.applyOp op) ∧ AtMostOneOwner (st.applyOp op) := by
  cases op with
  | add s lid => exact addShapeToLayer_WF_AMO st s lid h hamo
  | move s lid => exact moveShapeToLayer_WF_AMO st s lid h hamo
  | del lid =>
    unfold LMState.applyOp
    dsimp only
    split
    · rename_i r hr
      exact deleteLayer_WF_AMO st lid r h hamo hr
    · exact ⟨h, hamo⟩

theorem applyOps_WF_AMO (ops : List LMOp) (st : LMState)
    (h : LayersWF st) (hamo : AtMostOneOwner st) :
    LayersWF (st.applyOps ops) ∧ AtMostOneOwner (st.applyOps ops) := by
  induction ops generalizing st with
  | nil => exact ⟨h, hamo⟩
  | cons op rest ih =>
    have h1 := applyOp_WF_AMO st op h hamo
    exact ih _ h1.1 h1.2

/-- C3 counterexample: starting from the fresh manager, `addShapeToLayer`
puts shape 1 into `layer_0` (returning `true`), but a subsequent
`moveShapeToLayer` towards the nonexistent layer `layer_99` first removes
the shape from every layer and then fails the add, leaving the shape in
zero layers — not "exactly one". -/
theorem c3_counterexample :
    (initLM.addShapeToLayer 1 (some "layer_0")).1 = true ∧
    ownerCount (initLM.addShapeToLayer 1 (some "layer_0")).2 1 = 1 ∧
    ownerCount (initLM.applyOps
      [LMOp.add 1 (some "layer_0"), LMOp.move 1 (some "layer_99")]) 1 = 0 := by
  refine ⟨by decide, by decide, by decide⟩

/-- C3 as amended: after any sequence of `addShapeToLayer`,
`moveShapeToLayer` and `deleteLayer` calls on a well-formed manager, every
shape is a member of **at most one** layer's shape set; membership can drop
to zero (see the counterexample), so "exactly one" does not hold. -/
theorem c3_at_most_one_owner (ops : List LMOp) (st : LMState)
    (hWF : LayersWF st) (hamo : AtMostOneOwner st) :
    AtMostOneOwner (st.applyOps ops) :=
  (applyOps_WF_AMO ops st hWF hamo).2

/-- Witness for C3 at a concrete input: the fresh manager is well formed and
a concrete call sequence keeps every shape in at most one layer. -/
theorem c3_at_most_one_owner_witness :
    LayersWF initLM ∧ AtMostOneOwner initLM ∧
    AtMostOneOwner (initLM.applyOps
      [LMOp.add 2 (some "layer_0"), LMOp.add 3 none, LMOp.del "layer_0"]) := by
  have h1 : LayersWF initLM := by
    constructor
    · decide
    · decide
  have h2 : AtMostOneOwner initLM := by
    intro s
    simp [ownerCount, initLM, LMState.createDefaultLayer, mkLayer, mapSet]
  exact ⟨h1, h2, c3_at_most_one_owner
    [LMOp.add 2 (some "layer_0"), LMOp.add 3 none, LMOp.del "layer_0"]
    initLM h1 h2⟩


/-- C4 counterexample: on the reachable manager `crashLM` (default layer
deleted earlier, shape 7 owned by `layer_1`, two layers present),
`deleteLayer("layer_1")` throws a `TypeError` (`none` in the model) instead
of removing the layer and reassigning its shape. -/
theorem c4_counterexample :
    2 ≤ crashLM.layers.length ∧
    (crashLM.getLayer "layer_1").isSome ∧
    crashLM.deleteLayer "layer_1" = none := by
  refine ⟨by decide, by decide, by decide⟩

theorem moveFold_order (moved : List ℕ) (st : LMState) (tid : String) :
    (moved.foldl (fun acc s => acc.layerAddShape tid s) st).layerOrder
      = st.layerOrder := by
  induction moved generalizing st with
  | nil => rfl
  | cons s rest ih => rw [List.foldl_cons, ih]; rfl

theorem moveFold_active (moved : List ℕ) (st : LMState) (tid : String) :
    (moved.foldl (fun acc s => acc.layerAddShape tid s) st).activeLayerId
      = st.activeLayerId := by
  induction moved generalizing st with
  | nil => rfl
  | cons s rest ih => rw [List.foldl_cons, ih]; rfl

theorem exists_other_layer (ls : List Layer) (lid : String)
    (hnd : (ls.map (fun l => l.id)).Nodup) (hlen : 2 ≤ ls.length) :
    ∃ x ∈ ls, x.id ≠ lid := by
  match ls, hlen with
  | l1 :: l2 :: rest, _ =>
    by_cases h1 : l1.id = lid
    · refine ⟨l2, by simp, fun h2 => ?_⟩
      simp only [List.map_cons, List.nodup_cons, List.mem_cons] at hnd
      exact hnd.1 (Or.inl (by rw [h1, ← h2]))
    · exact ⟨l1, by simp, h1⟩

-- properties of deleteLayerTail
theorem deleteLayerTail_order (stM : LMState) (lid : String) :
    (deleteLayerTail stM lid).layerOrder = stM.layerOrder.erase lid := by
  unfold deleteLayerTail
  dsimp only
  split <;> rfl

theorem exists_entry_of_proj (stA stB : LMState)
    (h : stA.layers.map (fun l => (l.id, l.shapes))
      = stB.layers.map (fun l => (l.id, l.shapes))) :
    ∀ x ∈ stB.layers, ∃ l' ∈ stA.layers, l'.id = x.id ∧ l'.shapes = x.shapes := by
  intro x hx
  have hmem : (x.id, x.shapes) ∈ stA.layers.map (fun l => (l.id, l.shapes)) := by
    rw [h]
    exact List.mem_map_of_mem _ hx
  obtain ⟨l', hl', heq⟩ := List.mem_map.mp hmem
  exact ⟨l', hl', congrArg Prod.fst heq, congrArg Prod.snd heq⟩

theorem ids_ne_of_proj (stA stB : LMState)
    (h : stA.layers.map (fun l => (l.id, l.shapes))
      = stB.layers.map (fun l => (l.id, l.shapes)))
    (lid : String) (hB : ∀ x ∈ stB.layers, x.id ≠ lid) :
    ∀ l' ∈ stA.layers, l'.id ≠ lid := by
  intro l' hl'
  have hmem : (l'.id, l'.shapes) ∈ stB.layers.map (fun l => (l.id, l.shapes)) := by
    rw [← h]
    exact List.mem_map_of_mem _ hl'
  obtain ⟨x, hx, heq⟩ := List.mem_map.mp hmem
  have h1 : x.id = l'.id := congrArg Prod.fst heq
  rw [← h1]
  exact hB x hx

theorem deleteLayerTail_getLayer_none (stM : LMState) (lid : String) :
    (deleteLayerTail stM lid).getLayer lid = none := by
  have hfilter : ∀ x ∈ stM.layers.filter (fun l => ¬(l.id = lid)), x.id ≠ lid := by
    intro x hx
    have := List.of_mem_filter hx
    simpa using this
  have hmain : ∀ st4 : LMState,
      st4.layers = stM.layers.filter (fun l => ¬(l.id = lid)) →
      st4.updateLayerIndices.getLayer lid = none := by
    intro st4 h4
    unfold LMState.getLayer
    rw [List.find?_eq_none]
    intro l' hl'
    have hproj := updateIdx_proj st4
    have hne : l'.id ≠ lid := by
      refine ids_ne_of_proj st4.updateLayerIndices st4 hproj lid ?_ l' hl'
      intro x hx
      rw [h4] at hx
      exact hfilter x hx
    simpa using hne
  unfold deleteLayerTail
  dsimp only
  split
  · exact hmain _ rfl
  · exact hmain _ rfl

theorem deleteLayerTail_shapes_kept (stM : LMState) (lid : String)
    (x : Layer) (hx : x ∈ stM.layers) (hxid : x.id ≠ lid) :
    ∃ l' ∈ (deleteLayerTail stM lid).layers,
      l'.id = x.id ∧ l'.shapes = x.shapes := by
  have hmain : ∀ st4 : LMState,
      st4.layers = stM.layers.filter (fun l => ¬(l.id = lid)) →
      ∃ l' ∈ st4.updateLayerIndices.layers, l'.id = x.id ∧ l'.shapes = x.shapes := by
    intro st4 h4
    have hx4 : x ∈ st4.layers := by
      rw [h4]
      exact List.mem_filter_of_mem hx (by simpa using hxid)
    exact exists_entry_of_proj _ _ (updateIdx_proj st4) x hx4
  unfold deleteLayerTail
  dsimp only
  split
  · exact hmain _ rfl
  · exact hmain _ rfl

theorem deleteLayerTail_active (stM : LMState) (lid : String)
    (hact : stM.activeLayerId = some lid) (hd : String) (rest : List String)
    (hE : stM.layerOrder.erase lid = hd :: rest) (hhd : hd ≠ "") :
    (deleteLayerTail stM lid).activeLayerId = some hd ∧
    (deleteLayerTail stM lid).layerOrder = hd :: rest := by
  unfold deleteLayerTail
  dsimp only
  rw [if_pos hact, hE]
  dsimp only
  rw [if_neg hhd]
  exact ⟨rfl, rfl⟩

theorem moveFold_shapes_land (st : LMState) (layer tgt : Layer) (lid : String)
    (htgtmem : tgt ∈ st.layers) (htgtid : tgt.id ≠ lid) :
    ∀ s ∈ layer.shapes, ∃ x ∈ (layer.shapes.foldl
      (fun acc s => acc.layerAddShape tgt.id s) st).layers,
      s ∈ x.shapes ∧ x.id ≠ lid := by
  intro s hs
  rw [moveFold_layers]
  refine ⟨_, List.mem_map_of_mem _ htgtmem, ?_, ?_⟩
  · rw [if_pos rfl, mem_foldl_layerPush]
    exact Or.inr hs
  · rw [if_pos rfl, foldl_layerPush_id]
    exact htgtid

theorem c4_tail_pack (st stM : LMState) (lid : String) (layer : Layer)
    (hOrd : OrderWF st)
    (hMorder : stM.layerOrder = st.layerOrder)
    (hMactive : stM.activeLayerId = st.activeLayerId)
    (hshapes : ∀ s ∈ layer.shapes, ∃ x ∈ stM.layers, s ∈ x.shapes ∧ x.id ≠ lid)
    (hd : String) (rest : List String)
    (hE : st.layerOrder.erase lid = hd :: rest) (hhd : hd ≠ "") :
    (deleteLayerTail stM lid).getLayer lid = none ∧
    lid ∉ (deleteLayerTail stM lid).layerOrder ∧
    (∀ s ∈ layer.shapes, ∃ l' ∈ (deleteLayerTail stM lid).layers,
      s ∈ l'.shapes ∧ l'.id ≠ lid) ∧
    (st.activeLayerId = some lid →
      ∃ hd' rest', (deleteLayerTail stM lid).layerOrder = hd' :: rest' ∧
        (deleteLayerTail stM lid).activeLayerId = some hd') := by
  refine ⟨deleteLayerTail_getLayer_none _ _, ?_, ?_, ?_⟩
  · rw [deleteLayerTail_order, hMorder]
    intro hmem
    rw [List.Nodup.mem_erase_iff hOrd.1] at hmem
    exact hmem.1 rfl
  · intro s hs
    obtain ⟨x, hx, hsx, hxid⟩ := hshapes s hs
    obtain ⟨l', hl', hlid', hlsh'⟩ := deleteLayerTail_shapes_kept stM lid x hx hxid
    refine ⟨l', hl', ?_, ?_⟩
    · rw [hlsh']
      exact hsx
    · rw [hlid']
      exact hxid
  · intro hact
    have h1 := deleteLayerTail_active stM lid (by rw [hMactive]; exact hact) hd
      rest (by rw [hMorder]; exact hE) hhd
    exact ⟨hd, rest, h1.2, h1.1⟩

/-- C4 as amended: on a well-formed manager, `deleteLayer` is a rejected
no-op returning `false` when at most one layer remains (or the id is
unknown); when at least two layers exist and the target is present, then —
provided the default layer still exists, or the target is the default, or
the target owns no shapes — the call succeeds, removes the layer from the
map and the order array, every shape the deleted layer owned ends up in a
surviving layer, and if the deleted layer was active the first layer of the
new order becomes active.  When the default layer is already gone and the
doomed non-default layer owns a shape, the call throws (`none`) and changes
nothing. -/
theorem c4_deleteLayer_contract (st : LMState) (lid : String)
    (hWF : LayersWF st) (hOrd : OrderWF st) :
    (st.layers.length ≤ 1 → st.deleteLayer lid = some (false, st)) ∧
    (∀ layer, st.getLayer lid = some layer → 2 ≤ st.layers.length →
      ((lid = "layer_0" ∨ (st.getLayer "layer_0").isSome ∨ layer.shapes = []) →
        ∃ st', st.deleteLayer lid = some (true, st') ∧
          st'.getLayer lid = none ∧
          lid ∉ st'.layerOrder ∧
          (∀ s ∈ layer.shapes, ∃ l' ∈ st'.layers, s ∈ l'.shapes ∧ l'.id ≠ lid) ∧
          (st.activeLayerId = some lid →
            ∃ hd rest, st'.layerOrder = hd :: rest ∧
              st'.activeLayerId = some hd)) ∧
      (st.getLayer "layer_0" = none → lid ≠ "layer_0" → layer.shapes ≠ [] →
        st.deleteLayer lid = none)) := by
  constructor
  · intro h1
    unfold LMState.deleteLayer
    split
    · rfl
    · rw [if_pos h1]
  · intro layer hfind hlen
    have hlayermem : layer ∈ st.layers := List.mem_of_find?_eq_some hfind
    have hlayerid : layer.id = lid := by simpa using List.find?_some hfind
    have hlennot : ¬(st.layers.length ≤ 1) := by omega
    constructor
    · intro hnc
      have hperm : st.layerOrder.Perm (st.layers.map (fun l => l.id)) := by
        rw [List.perm_ext_iff_of_nodup hOrd.1 hWF.1]
        intro a
        constructor
        · intro ha
          obtain ⟨l, hl, he⟩ := hOrd.2.1 a ha
          rw [← he]
          exact List.mem_map_of_mem _ hl
        · intro ha
          obtain ⟨l, hl, he⟩ := List.mem_map.mp ha
          rw [← he]
          exact hOrd.2.2.1 l hl
      have hordlen : st.layerOrder.length = st.layers.length := by
        rw [hperm.length_eq, List.length_map]
      have hlid_in_order : lid ∈ st.layerOrder := by
        rw [← hlayerid]
        exact hOrd.2.2.1 layer hlayermem
      have herase_len : (st.layerOrder.erase lid).length
          = st.layerOrder.length - 1 := List.length_erase_of_mem hlid_in_order
      obtain ⟨hd, rest, hE⟩ : ∃ hd rest,
          st.layerOrder.erase lid = hd :: rest := by
        cases hcase : st.layerOrder.erase lid with
        | nil =>
          exfalso
          rw [hcase] at herase_len
          simp at herase_len
          omega
        | cons hd rest => exact ⟨hd, rest, rfl⟩
      have hhd : hd ≠ "" := by
        have hmem1 : hd ∈ st.layerOrder.erase lid := by
          rw [hE]
          exact List.mem_cons_self _ _
        obtain ⟨l, hl, hle⟩ := hOrd.2.1 hd (List.mem_of_mem_erase hmem1)
        rw [← hle]
        exact hOrd.2.2.2 l hl
      by_cases hl0 : lid = "layer_0"
      · obtain ⟨x, hx, hxid⟩ := exists_other_layer st.layers lid hWF.1 hlen
        have hfindsome : (st.layers.find? (fun l => ¬(l.id = lid))).isSome := by
          rw [List.find?_isSome]
          exact ⟨x, hx, by simpa using hxid⟩
        obtain ⟨other, hother⟩ := Option.isSome_iff_exists.mp hfindsome
        have hotherid : other.id ≠ lid := by simpa using List.find?_some hother
        have hothermem : other ∈ st.layers := List.mem_of_find?_eq_some hother
        have hdel_eq : st.deleteLayer lid = some (true,
            deleteLayerTail (layer.shapes.foldl
              (fun acc s => acc.layerAddShape other.id s) st) lid) := by
          unfold LMState.deleteLayer
          rw [hfind]
          dsimp only
          rw [if_neg hlennot, if_pos hl0, hother]
        have hpack := c4_tail_pack st _ lid layer hOrd
          (moveFold_order _ _ _) (moveFold_active _ _ _)
          (moveFold_shapes_land st layer other lid hothermem hotherid)
          hd rest hE hhd
        exact ⟨_, hdel_eq, hpack.1, hpack.2.1, hpack.2.2.1, hpack.2.2.2⟩
      · have hdefault : (st.getLayer "layer_0").isSome ∨ layer.shapes = [] := by
          rcases hnc with hc | hc | hc
          · exact absurd hc hl0
          · exact Or.inl hc
          · exact Or.inr hc
        rcases hdefault with hc | hc
        · obtain ⟨dl, hdl⟩ := Option.isSome_iff_exists.mp hc
          have hdlid : dl.id = "layer_0" := by simpa using List.find?_some hdl
          have hdlmem : dl ∈ st.layers := List.mem_of_find?_eq_some hdl
          have hdlne : dl.id ≠ lid := by
            rw [hdlid]
            exact fun he => hl0 he.symm
          have hdel_eq : st.deleteLayer lid = some (true,
              deleteLayerTail (layer.shapes.foldl
                (fun acc s => acc.layerAddShape "layer_0" s) st) lid) := by
            unfold LMState.deleteLayer
            rw [hfind]
            dsimp only
            rw [if_neg hlennot, if_neg hl0, hdl]
          have hshapes : ∀ s ∈ layer.shapes, ∃ x ∈ (layer.shapes.foldl
              (fun acc s => acc.layerAddShape "layer_0" s) st).layers,
              s ∈ x.shapes ∧ x.id ≠ lid := by
            have := moveFold_shapes_land st layer dl lid hdlmem hdlne
            rw [hdlid] at this
            exact this
          have hpack := c4_tail_pack st _ lid layer hOrd
            (moveFold_order _ _ _) (moveFold_active _ _ _) hshapes hd rest hE hhd
          exact ⟨_, hdel_eq, hpack.1, hpack.2.1, hpack.2.2.1, hpack.2.2.2⟩
        · cases hdl0 : st.getLayer "layer_0" with
          | some dl =>
            have hdel_eq : st.deleteLayer lid
                = some (true, deleteLayerTail st lid) := by
              unfold LMState.deleteLayer
              rw [hfind]
              dsimp only
              rw [if_neg hlennot, if_neg hl0, hdl0, hc]
              rfl
            have hpack := c4_tail_pack st st lid layer hOrd rfl rfl
              (by rw [hc]; intro s hs; cases hs) hd rest hE hhd
            exact ⟨_, hdel_eq, hpack.1, hpack.2.1, hpack.2.2.1, hpack.2.2.2⟩
          | none =>
            have hdel_eq : st.deleteLayer lid
                = some (true, deleteLayerTail st lid) := by
              unfold LMState.deleteLayer
              rw [hfind]
              dsimp only
              rw [if_neg hlennot, if_neg hl0, hdl0]
              dsimp only
              rw [if_pos hc]
            have hpack := c4_tail_pack st st lid layer hOrd rfl rfl
              (by rw [hc]; intro s hs; cases hs) hd rest hE hhd
            exact ⟨_, hdel_eq, hpack.1, hpack.2.1, hpack.2.2.1, hpack.2.2.2⟩
    · intro hdl0 hl0 hsh
      unfold LMState.deleteLayer
      rw [hfind]
      dsimp only
      rw [if_neg hlennot, if_neg hl0, hdl0]
      dsimp only
      rw [if_neg hsh]

/-- Witness for C4 at a concrete input: deleting the shape-owning layer
`layer_1` from a well-formed two-layer manager succeeds with the stated
post-state. -/
theorem c4_deleteLayer_contract_witness :
    LayersWF c4LM ∧ OrderWF c4LM ∧
    (∃ layer, c4LM.getLayer "layer_1" = some layer ∧
      2 ≤ c4LM.layers.length ∧
      ∃ st', c4LM.deleteLayer "layer_1" = some (true, st') ∧
        st'.getLayer "layer_1" = none ∧
        "layer_1" ∉ st'.layerOrder ∧
        (∀ s ∈ layer.shapes, ∃ l' ∈ st'.layers,
          s ∈ l'.shapes ∧ l'.id ≠ "layer_1") ∧
        (c4LM.activeLayerId = some "layer_1" →
          ∃ hd rest, st'.layerOrder = hd :: rest ∧
            st'.activeLayerId = some hd)) := by
  have hWF : LayersWF c4LM := ⟨by decide, by decide⟩
  have hOrd : OrderWF c4LM := ⟨by decide, by decide, by decide, by decide⟩
  obtain ⟨layer, hlay⟩ : ∃ layer, c4LM.getLayer "layer_1" = some layer :=
    ⟨_, rfl⟩
  have h2 : 2 ≤ c4LM.layers.length := by decide
  have hnc : ("layer_1" = "layer_0" ∨ (c4LM.getLayer "layer_0").isSome ∨
      layer.shapes = []) := Or.inr (Or.inl (by decide))
  have happ := (c4_deleteLayer_contract c4LM "layer_1" hWF hOrd).2 layer hlay h2
  exact ⟨hWF, hOrd, layer, hlay, h2, happ.1 hnc⟩

end Blueprint
